import Mathlib

/-!
Verification of the repository + combination layer of the students/rooms
CRUD service (`students_rooms/repositories.py`).

Records are JSON objects persisted in flat files.  The records this system
creates and manipulates carry the fields below (`Room` / `Student`
dataclasses and the dict literals in `create`); ids are Python integers,
modelled as `Int`.
-/

structure RoomRec where
  id : Int
  name : String
deriving DecidableEq

structure StudentRec where
  id : Int
  name : String
  room : Int
deriving DecidableEq

/-- Python's `max(iterable, default=d)`: the maximum element of a nonempty
list, and `d` when the list is empty. -/
def pyMax (l : List Int) (d : Int) : Int :=
  match l with
  | [] => d
  | x :: xs => xs.foldl max x

/-- `JsonRoomsRepository._next_id`: `max((r["id"] for r in rooms), default=0) + 1`. -/
def roomsNextId (rooms : List RoomRec) : Int :=
  pyMax (rooms.map RoomRec.id) 0 + 1

/-- `JsonStudentsRepository._next_id`: `max((s["id"] for s in students), default=0) + 1`. -/
def studentsNextId (students : List StudentRec) : Int :=
  pyMax (students.map StudentRec.id) 0 + 1

/-- `JsonRoomsRepository.create`: build `{"id": _next_id(rooms), "name": name}`,
append it to the collection, persist, return the new room.
Result: (persisted collection, returned room). -/
def roomsCreate (rooms : List RoomRec) (name : String) : List RoomRec × RoomRec :=
  let room : RoomRec := ⟨roomsNextId rooms, name⟩
  (rooms ++ [room], room)

/-- `JsonStudentsRepository.create`: build
`{"id": _next_id(students), "name": name, "room": room}`, append, persist,
return the new student. -/
def studentsCreate (students : List StudentRec) (name : String) (room : Int) :
    List StudentRec × StudentRec :=
  let student : StudentRec := ⟨studentsNextId students, name, room⟩
  (students ++ [student], student)

/-- `JsonRoomsRepository.update`: scan for the first record with matching id,
replace its `name`, persist and return it; when no record matches, return
`None` without writing.  Result: (persisted collection, returned room). -/
def roomsUpdate : List RoomRec → Int → String → List RoomRec × Option RoomRec
  | [], _, _ => ([], none)
  | r :: rs, roomId, name =>
    if r.id = roomId then
      let r2 : RoomRec := { r with name := name }
      (r2 :: rs, some r2)
    else
      let rest := roomsUpdate rs roomId name
      (r :: rest.1, rest.2)

/-- `JsonStudentsRepository.update`: scan for the first record with matching
id; overwrite `name` / `room` only when the corresponding argument was
supplied (`is not None`); persist and return the updated student; when no
record matches, return `None` without writing. -/
def studentsUpdate :
    List StudentRec → Int → Option String → Option Int → List StudentRec × Option StudentRec
  | [], _, _, _ => ([], none)
  | s :: ss, studentId, name?, room? =>
    if s.id = studentId then
      let s2 : StudentRec := { s with name := name?.getD s.name, room := room?.getD s.room }
      (s2 :: ss, some s2)
    else
      let rest := studentsUpdate ss studentId name? room?
      (s :: rest.1, rest.2)

/-- `JsonStudentsRepository.move`: literally `self.update(student_id, room=to_room_id)`. -/
def studentsMove (students : List StudentRec) (studentId toRoomId : Int) :
    List StudentRec × Option StudentRec :=
  studentsUpdate students studentId none (some toRoomId)

/-- `JsonRoomsRepository.delete`: keep the records whose id differs; if
nothing was dropped return `False` without writing, else persist the
filtered list and return `True`.  Result: (persisted collection, returned flag). -/
def roomsDelete (rooms : List RoomRec) (roomId : Int) : List RoomRec × Bool :=
  let newRooms := rooms.filter (fun r => decide (r.id ≠ roomId))
  if newRooms.length = rooms.length then (rooms, false) else (newRooms, true)

/-- `JsonStudentsRepository.delete`: same scheme as room deletion. -/
def studentsDelete (students : List StudentRec) (studentId : Int) : List StudentRec × Bool :=
  let newStudents := students.filter (fun s => decide (s.id ≠ studentId))
  if newStudents.length = students.length then (students, false) else (newStudents, true)

/-- `JsonStudentsRepository.list`: when `ids_in` was supplied, keep the
students whose id lies in it; then, when `room_in` was supplied, keep those
whose room lies in it (Python materialises each filter argument as a set;
set membership is list membership). -/
def studentsList (students : List StudentRec) (idsIn : Option (List Int))
    (roomIn : Option (List Int)) : List StudentRec :=
  let items := students
  let items := match idsIn with
    | none => items
    | some ids => items.filter (fun s => decide (s.id ∈ ids))
  let items := match roomIn with
    | none => items
    | some rooms => items.filter (fun s => decide (s.room ∈ rooms))
  items

/-- Outcome of opening and JSON-decoding a file: the file may be absent,
present but not valid JSON, or a valid JSON array of records. -/
inductive FileContent (α : Type) where
  | missing
  | malformed
  | valid (items : List α)
deriving DecidableEq

/-- `RepositoryError`, the storage-corruption error raised by the mixin. -/
inductive RepoError where
  | repositoryError (msg : String)
deriving DecidableEq

/-- The exceptions `JsonDataLoader.load` can let propagate: `open` raising
`FileNotFoundError`, or `json.load` raising `JSONDecodeError`. -/
inductive LoadError where
  | fileNotFoundError
  | jsonDecodeError
deriving DecidableEq

/-- `JsonFileRepositoryMixin._read`: `json.load` of the file on success;
`FileNotFoundError` is caught and yields `[]`; `JSONDecodeError` is re-raised
as `RepositoryError(f"Invalid JSON in {self.file_path}")`. -/
def jsonFileRead (α : Type) (filePath : String) (fc : FileContent α) :
    Except RepoError (List α) :=
  match fc with
  | .valid items => .ok items
  | .missing => .ok []
  | .malformed => .error (.repositoryError ("Invalid JSON in " ++ filePath))

/-- `JsonDataLoader.load`: `open(file_path)` then `json.load(file)` with no
exception handler, so both failures propagate. -/
def jsonDataLoaderLoad (α : Type) (filePath : String) (fc : FileContent α) :
    Except LoadError (List α) :=
  match fc, filePath with
  | .valid items, _ => .ok items
  | .missing, _ => .error .fileNotFoundError
  | .malformed, _ => .error .jsonDecodeError

/-- A JSON scalar as stored in the record dicts this code builds. -/
inductive JsonValue where
  | intVal (n : Int)
  | strVal (s : String)
deriving DecidableEq

/-- The dict literal `JsonStudentsRepository.create` appends to the student
file: `{"id": self._next_id(students), "name": name, "room": room}`, as an
ordered key/value list. -/
def createdStudentDict (students : List StudentRec) (name : String) (room : Int) :
    List (String × JsonValue) :=
  [("id", .intVal (studentsNextId students)), ("name", .strVal name), ("room", .intVal room)]

/-- One student entry `{'id': ..., 'name': ...}` of a combined room. -/
structure StudentLite where
  id : Int
  name : String
deriving DecidableEq

/-- One value of `room_dict`: `{'id': ..., 'name': ..., 'students': [...]}`. -/
structure CombinedRoom where
  id : Int
  name : String
  students : List StudentLite
deriving DecidableEq

/-- Python dict assignment `d[k] = v` on an insertion-ordered dict: an
existing key keeps its position and gets the new value; a new key is
appended at the end. -/
def dictInsert (d : List (Int × CombinedRoom)) (k : Int) (v : CombinedRoom) :
    List (Int × CombinedRoom) :=
  match d with
  | [] => [(k, v)]
  | (k0, v0) :: rest =>
    if k0 = k then (k0, v) :: rest else (k0, v0) :: dictInsert rest k v

/-- Python `room_id in room_dict`. -/
def dictHasKey (d : List (Int × CombinedRoom)) (k : Int) : Bool :=
  d.any (fun e => decide (e.1 = k))

/-- The effect of one student on one `room_dict` entry: append
`{'id': ..., 'name': ...}` to the entry whose key is `student['room']`,
leave every other entry alone. -/
def appendIfMatch (s : StudentRec) (e : Int × CombinedRoom) : Int × CombinedRoom :=
  if e.1 = s.room then
    (e.1, { e.2 with students := e.2.students ++ [⟨s.id, s.name⟩] })
  else e

/-- The body of the student loop of `DataCombiner.combine`: when
`student['room']` is a key of `room_dict`, append `{'id': ..., 'name': ...}`
to that entry's student list, else do nothing. -/
def addStudentToDict (d : List (Int × CombinedRoom)) (s : StudentRec) :
    List (Int × CombinedRoom) :=
  if dictHasKey d s.room then d.map (appendIfMatch s) else d

/-- `DataCombiner.combine`: build `room_dict` by inserting one fresh
combined-room record per room, run the student loop, return
`list(room_dict.values())`. -/
def combine (rooms : List RoomRec) (students : List StudentRec) : List CombinedRoom :=
  let roomDict := rooms.foldl (fun d room => dictInsert d room.id ⟨room.id, room.name, []⟩) []
  let roomDict := students.foldl addStudentToDict roomDict
  roomDict.map Prod.snd

/-! ### Helper lemmas about Python's `max(..., default=...)` -/

theorem le_foldl_max (xs : List Int) (b : Int) : b ≤ xs.foldl max b := by
  induction xs generalizing b with
  | nil => exact le_refl b
  | cons x xs ih => exact le_trans (le_max_left b x) (ih (max b x))

theorem mem_le_foldl_max (xs : List Int) (b x : Int) (h : x ∈ xs) : x ≤ xs.foldl max b := by
  induction xs generalizing b with
  | nil => cases h
  | cons a xs ih =>
    rcases List.mem_cons.mp h with rfl | hx
    · exact le_trans (le_max_right b x) (le_foldl_max xs (max b x))
    · exact ih (max b a) hx

theorem mem_le_pyMax (l : List Int) (d x : Int) (h : x ∈ l) : x ≤ pyMax l d := by
  cases l with
  | nil => cases h
  | cons y ys =>
    rcases List.mem_cons.mp h with rfl | hx
    · exact le_foldl_max ys x
    · exact mem_le_foldl_max ys y x hx

theorem pyMax_eq_max? (l : List Int) (d : Int) : pyMax l d = (l.max?).getD d := by
  cases l <;> rfl

/-! ### Claims -/

/-- C5: `create` assigns the new record the id `1 + max(existing ids, default 0)`,
appends it to the end of the collection, persists that, and returns the new
record; on an empty collection the assigned id is 1.  Both for rooms and
students. -/
theorem c5_create_assigns_max_plus_one (rooms : List RoomRec)
    (students : List StudentRec) (rname sname : String) (sroom : Int) :
    (roomsCreate rooms rname).2.id = 1 + ((rooms.map RoomRec.id).max?).getD 0 ∧
    (roomsCreate rooms rname).2.name = rname ∧
    (roomsCreate rooms rname).1 = rooms ++ [(roomsCreate rooms rname).2] ∧
    roomsCreate [] rname = ([⟨1, rname⟩], ⟨1, rname⟩) ∧
    (studentsCreate students sname sroom).2.id =
      1 + ((students.map StudentRec.id).max?).getD 0 ∧
    (studentsCreate students sname sroom).2.name = sname ∧
    (studentsCreate students sname sroom).2.room = sroom ∧
    (studentsCreate students sname sroom).1 =
      students ++ [(studentsCreate students sname sroom).2] ∧
    studentsCreate [] sname sroom = ([⟨1, sname, sroom⟩], ⟨1, sname, sroom⟩) := by
  refine ⟨?_, rfl, rfl, rfl, ?_, rfl, rfl, rfl, rfl⟩
  · simp [roomsCreate, roomsNextId, pyMax_eq_max?, Int.add_comm]
  · simp [studentsCreate, studentsNextId, pyMax_eq_max?, Int.add_comm]

/-- C9: `move(id, to_room_id)` returns the same result and leaves the
collection in the same state as `update(id, room=to_room_id)`. -/
theorem c9_move_is_update (students : List StudentRec) (studentId toRoomId : Int) :
    studentsMove students studentId toRoomId =
      studentsUpdate students studentId none (some toRoomId) :=
  rfl

/-- C4: `_read` on a missing file returns the empty sequence; `_read` on
malformed JSON raises `RepositoryError` whose message names the file path,
and is never an `ok` result (so malformed JSON is never treated as an empty
collection). -/
theorem c4_read_missing_and_malformed (α : Type) (filePath : String) :
    jsonFileRead α filePath .missing = .ok [] ∧
    jsonFileRead α filePath .malformed =
      .error (.repositoryError ("Invalid JSON in " ++ filePath)) ∧
    ∀ items : List α, jsonFileRead α filePath .malformed ≠ .ok items :=
  ⟨rfl, rfl, fun _ h => by simp [jsonFileRead] at h⟩

/-- C10: `JsonDataLoader.load` on a missing file propagates
`FileNotFoundError` instead of returning an empty sequence, unlike the
repositories' `_read`, which returns `[]` there. -/
theorem c10_loader_raises_on_missing_file (α : Type) (filePath : String) :
    jsonDataLoaderLoad α filePath .missing = .error .fileNotFoundError ∧
    (∀ items : List α, jsonDataLoaderLoad α filePath .missing ≠ .ok items) ∧
    jsonFileRead α filePath .missing = .ok [] :=
  ⟨rfl, fun _ h => by simp [jsonDataLoaderLoad] at h, rfl⟩

/-- C8 counterexample: the record `JsonStudentsRepository.create` appends for
a concrete student carries exactly the keys `id, name, room` — there is no
`sex` and no `birthday` key. -/
theorem c8_counterexample_no_sex_birthday_keys :
    (createdStudentDict [] "Alice" 1).map Prod.fst = ["id", "name", "room"] ∧
    "sex" ∉ (createdStudentDict [] "Alice" 1).map Prod.fst ∧
    "birthday" ∉ (createdStudentDict [] "Alice" 1).map Prod.fst := by
  refine ⟨rfl, ?_, ?_⟩ <;> decide

/-- C8 amended: every record `JsonStudentsRepository.create` appends to the
student file carries exactly the keys `id, name, room`, in that order. -/
theorem c8_amended_created_record_keys (students : List StudentRec)
    (name : String) (room : Int) :
    (createdStudentDict students name room).map Prod.fst = ["id", "name", "room"] :=
  rfl

/-- C3 counterexample: on a store holding one student, `list` with a present
but empty ids filter returns the empty list, not the unfiltered list. -/
theorem c3_counterexample_empty_filter :
    studentsList [⟨1, "A", 1⟩] (some []) none = [] ∧
    studentsList [⟨1, "A", 1⟩] (some []) none ≠ [⟨1, "A", 1⟩] := by
  refine ⟨rfl, ?_⟩
  intro h
  have h0 : ([] : List StudentRec) = [⟨1, "A", 1⟩] := h
  simp at h0

/-- C3 amended: with both filters supplied, `list` returns exactly the
students whose id lies in the ids filter AND whose room lies in the room
filter, in original file order; a filter that was not supplied imposes no
restriction on its dimension; a supplied-but-empty filter matches nothing,
so the result is empty. -/
theorem c3_amended_filter_semantics (students : List StudentRec)
    (ids rooms : List Int) :
    studentsList students (some ids) (some rooms) =
      students.filter (fun s => decide (s.id ∈ ids) && decide (s.room ∈ rooms)) ∧
    studentsList students (some ids) none =
      students.filter (fun s => decide (s.id ∈ ids)) ∧
    studentsList students none (some rooms) =
      students.filter (fun s => decide (s.room ∈ rooms)) ∧
    studentsList students none none = students ∧
    studentsList students (some []) (some []) = [] ∧
    studentsList students (some []) none = [] := by
  refine ⟨?_, rfl, rfl, rfl, ?_, ?_⟩
  · simp [studentsList, List.filter_filter, Bool.and_comm]
  · simp [studentsList]
  · simp [studentsList]

/-- C1 counterexample: starting from an empty room collection, create
assigns id 1, a second create assigns id 2, deleting id 2 succeeds, and the
next create assigns id 2 again — the id of the deleted record is reused, and
the new id is not strictly greater than every previously assigned id. -/
theorem c1_counterexample_id_reuse_after_delete :
    (roomsCreate [] "A").1 = [⟨1, "A"⟩] ∧
    (roomsCreate [] "A").2.id = 1 ∧
    (roomsCreate [⟨1, "A"⟩] "B").1 = [⟨1, "A"⟩, ⟨2, "B"⟩] ∧
    (roomsCreate [⟨1, "A"⟩] "B").2.id = 2 ∧
    roomsDelete [⟨1, "A"⟩, ⟨2, "B"⟩] 2 = ([⟨1, "A"⟩], true) ∧
    (roomsCreate [⟨1, "A"⟩] "C").2.id = 2 ∧
    ¬ (roomsCreate [⟨1, "A"⟩] "C").2.id > (roomsCreate [⟨1, "A"⟩] "B").2.id := by
  refine ⟨rfl, rfl, rfl, rfl, ?_, rfl, ?_⟩ <;> decide

/-- C1 amended: each id returned by `create` is strictly greater than every
id present in the collection at the time of the call (it equals 1 + the
current maximum); ids of records deleted earlier are not remembered, so
after deleting the record holding the largest id, the next create reuses
that id. -/
theorem c1_amended_create_id_exceeds_current (rooms : List RoomRec)
    (students : List StudentRec) (rname sname : String) (sroom : Int) :
    (∀ r ∈ rooms, r.id < (roomsCreate rooms rname).2.id) ∧
    (∀ s ∈ students, s.id < (studentsCreate students sname sroom).2.id) := by
  constructor
  · intro r hr
    have h := mem_le_pyMax (rooms.map RoomRec.id) 0 r.id (List.mem_map_of_mem _ hr)
    have : (roomsCreate rooms rname).2.id = pyMax (rooms.map RoomRec.id) 0 + 1 := rfl
    rw [this]
    exact Int.lt_add_one_iff.mpr h
  · intro s hs
    have h := mem_le_pyMax (students.map StudentRec.id) 0 s.id (List.mem_map_of_mem _ hs)
    have : (studentsCreate students sname sroom).2.id =
        pyMax (students.map StudentRec.id) 0 + 1 := rfl
    rw [this]
    exact Int.lt_add_one_iff.mpr h

/-! ### Helper lemmas for update / delete -/

theorem roomsUpdate_not_found (rooms : List RoomRec) (roomId : Int) (name : String)
    (h : roomId ∉ rooms.map RoomRec.id) : roomsUpdate rooms roomId name = (rooms, none) := by
  induction rooms with
  | nil => rfl
  | cons r rs ih =>
    simp only [List.map_cons, List.mem_cons, not_or] at h
    simp only [roomsUpdate]
    rw [if_neg (fun he => h.1 he.symm), ih h.2]

theorem studentsUpdate_not_found (students : List StudentRec) (studentId : Int)
    (name? : Option String) (room? : Option Int)
    (h : studentId ∉ students.map StudentRec.id) :
    studentsUpdate students studentId name? room? = (students, none) := by
  induction students with
  | nil => rfl
  | cons s ss ih =>
    simp only [List.map_cons, List.mem_cons, not_or] at h
    simp only [studentsUpdate]
    rw [if_neg (fun he => h.1 he.symm), ih h.2]

theorem roomsDelete_not_found (rooms : List RoomRec) (roomId : Int)
    (h : roomId ∉ rooms.map RoomRec.id) : roomsDelete rooms roomId = (rooms, false) := by
  have hfix : rooms.filter (fun r => decide (r.id ≠ roomId)) = rooms := by
    apply List.filter_eq_self.mpr
    intro r hr
    simp only [decide_eq_true_eq]
    intro he
    exact h (he ▸ List.mem_map_of_mem RoomRec.id hr)
  simp only [roomsDelete]
  rw [hfix, if_pos rfl]

theorem studentsDelete_not_found (students : List StudentRec) (studentId : Int)
    (h : studentId ∉ students.map StudentRec.id) :
    studentsDelete students studentId = (students, false) := by
  have hfix : students.filter (fun s => decide (s.id ≠ studentId)) = students := by
    apply List.filter_eq_self.mpr
    intro s hs
    simp only [decide_eq_true_eq]
    intro he
    exact h (he ▸ List.mem_map_of_mem StudentRec.id hs)
  simp only [studentsDelete]
  rw [hfix, if_pos rfl]

theorem roomsDelete_found (rooms : List RoomRec) (roomId : Int)
    (h : roomId ∈ rooms.map RoomRec.id) :
    roomsDelete rooms roomId = (rooms.filter (fun r => decide (r.id ≠ roomId)), true) := by
  obtain ⟨r, hr, hid⟩ := List.mem_map.mp h
  have hlt : (rooms.filter (fun r => decide (r.id ≠ roomId))).length < rooms.length := by
    apply List.length_filter_lt_length_iff_exists.mpr
    exact ⟨r, hr, by simp [hid]⟩
  simp only [roomsDelete]
  rw [if_neg (Nat.ne_of_lt hlt)]

theorem studentsDelete_found (students : List StudentRec) (studentId : Int)
    (h : studentId ∈ students.map StudentRec.id) :
    studentsDelete students studentId =
      (students.filter (fun s => decide (s.id ≠ studentId)), true) := by
  obtain ⟨s, hs, hid⟩ := List.mem_map.mp h
  have hlt : (students.filter (fun s => decide (s.id ≠ studentId))).length
      < students.length := by
    apply List.length_filter_lt_length_iff_exists.mpr
    exact ⟨s, hs, by simp [hid]⟩
  simp only [studentsDelete]
  rw [if_neg (Nat.ne_of_lt hlt)]

/-- C6: `update` on an id not present in the collection returns `None` and
performs no write — the persisted collection after the call equals the one
before.  Both for rooms and students. -/
theorem c6_update_missing_id_no_write (rooms : List RoomRec)
    (students : List StudentRec) (roomId studentId : Int) (rname : String)
    (sname? : Option String) (sroom? : Option Int)
    (hr : roomId ∉ rooms.map RoomRec.id)
    (hs : studentId ∉ students.map StudentRec.id) :
    roomsUpdate rooms roomId rname = (rooms, none) ∧
    studentsUpdate students studentId sname? sroom? = (students, none) :=
  ⟨roomsUpdate_not_found rooms roomId rname hr,
   studentsUpdate_not_found students studentId sname? sroom? hs⟩

/-- C6 witness: at a concrete store and a concrete absent id, update returns
`None` and leaves the store unchanged. -/
theorem c6_witness :
    roomsUpdate [⟨1, "A"⟩] 2 "B" = ([⟨1, "A"⟩], none) ∧
    studentsUpdate [⟨1, "X", 1⟩] 2 (some "Y") none = ([⟨1, "X", 1⟩], none) :=
  c6_update_missing_id_no_write [⟨1, "A"⟩] [⟨1, "X", 1⟩] 2 2 "B" (some "Y") none
    (by decide) (by decide)

/-- C7: `delete` on an id not present in the collection returns `false` and
leaves the collection content-equal; on a present id it removes the matching
records and returns `true`.  Both for rooms and students. -/
theorem c7_delete_semantics (rooms : List RoomRec) (students : List StudentRec)
    (roomId studentId : Int) :
    (roomId ∉ rooms.map RoomRec.id → roomsDelete rooms roomId = (rooms, false)) ∧
    (roomId ∈ rooms.map RoomRec.id →
      roomsDelete rooms roomId = (rooms.filter (fun r => decide (r.id ≠ roomId)), true)) ∧
    (studentId ∉ students.map StudentRec.id →
      studentsDelete students studentId = (students, false)) ∧
    (studentId ∈ students.map StudentRec.id →
      studentsDelete students studentId =
        (students.filter (fun s => decide (s.id ≠ studentId)), true)) :=
  ⟨roomsDelete_not_found rooms roomId, roomsDelete_found rooms roomId,
   studentsDelete_not_found students studentId, studentsDelete_found students studentId⟩

/-! ### Helper lemmas for the combiner -/

theorem dictInsert_fresh (d : List (Int × CombinedRoom)) (k : Int) (v : CombinedRoom)
    (h : k ∉ d.map Prod.fst) : dictInsert d k v = d ++ [(k, v)] := by
  induction d with
  | nil => rfl
  | cons e rest ih =>
    obtain ⟨k0, v0⟩ := e
    simp only [List.map_cons, List.mem_cons, not_or] at h
    simp only [dictInsert]
    rw [if_neg (fun he => h.1 he.symm), ih h.2]
    rfl

theorem buildRoomDict : ∀ (rooms : List RoomRec) (d0 : List (Int × CombinedRoom)),
    (rooms.map RoomRec.id).Nodup →
    (∀ r ∈ rooms, r.id ∉ d0.map Prod.fst) →
    rooms.foldl (fun d room => dictInsert d room.id ⟨room.id, room.name, []⟩) d0 =
      d0 ++ rooms.map (fun r => (r.id, (⟨r.id, r.name, []⟩ : CombinedRoom)))
  | [], d0, _, _ => by simp
  | r :: rs, d0, hnd, hd0 => by
    simp only [List.map_cons, List.nodup_cons] at hnd
    simp only [List.foldl_cons]
    rw [dictInsert_fresh d0 r.id _ (hd0 r (List.mem_cons_self r rs))]
    have hd0' : ∀ r' ∈ rs,
        r'.id ∉ (d0 ++ [(r.id, (⟨r.id, r.name, []⟩ : CombinedRoom))]).map Prod.fst := by
      intro r' hr' hc
      rw [List.map_append, List.mem_append] at hc
      rcases hc with h1 | h2
      · exact hd0 r' (List.mem_cons_of_mem r hr') h1
      · have h3 : r'.id = r.id := by simpa using h2
        exact hnd.1 (h3 ▸ List.mem_map_of_mem RoomRec.id hr')
    rw [buildRoomDict rs (d0 ++ [(r.id, (⟨r.id, r.name, []⟩ : CombinedRoom))]) hnd.2 hd0']
    simp

theorem addStudent_eq_map (d : List (Int × CombinedRoom)) (s : StudentRec) :
    addStudentToDict d s = d.map (appendIfMatch s) := by
  unfold addStudentToDict
  split
  · rfl
  · rename_i hno
    have hfix : ∀ e ∈ d, appendIfMatch s e = e := by
      intro e he
      have hk : ¬ (e.1 = s.room) := by
        intro hk
        exact hno (List.any_eq_true.mpr ⟨e, he, by simp [hk]⟩)
      simp [appendIfMatch, hk]
    exact ((List.map_congr_left hfix).trans (List.map_id d)).symm

theorem foldl_map_pointwise {β γ : Type} (g : β → γ → γ) (l : List β) :
    ∀ d : List γ, l.foldl (fun acc b => acc.map (g b)) d
      = d.map (fun e => l.foldl (fun e b => g b e) e) := by
  induction l with
  | nil => intro d; simp
  | cons b bs ih =>
    intro d
    simp only [List.foldl_cons]
    rw [ih (d.map (g b)), List.map_map]
    rfl

theorem studentFold_entry (students : List StudentRec) :
    ∀ (rid : Int) (name : String) (acc : List StudentLite),
    students.foldl (fun e s => appendIfMatch s e)
        ((rid, ⟨rid, name, acc⟩) : Int × CombinedRoom) =
      (rid, ⟨rid, name,
        acc ++ (students.filter (fun s => decide (s.room = rid))).map
          (fun s => (⟨s.id, s.name⟩ : StudentLite))⟩) := by
  induction students with
  | nil => intro rid name acc; simp
  | cons s ss ih =>
    intro rid name acc
    simp only [List.foldl_cons, List.filter_cons]
    by_cases h : s.room = rid
    · rw [show appendIfMatch s (rid, ⟨rid, name, acc⟩)
          = (rid, ⟨rid, name, acc ++ [⟨s.id, s.name⟩]⟩) from by
        simp [appendIfMatch, h.symm]]
      rw [ih rid name (acc ++ [(⟨s.id, s.name⟩ : StudentLite)])]
      simp [h, List.append_assoc]
    · have hk : ¬ (rid = s.room) := fun he => h he.symm
      rw [show appendIfMatch s (rid, ⟨rid, name, acc⟩) = (rid, ⟨rid, name, acc⟩) from by
        simp [appendIfMatch, hk]]
      rw [ih rid name acc]
      simp [h]

/-- C2: for room ids pairwise distinct (the data-model invariant), `combine`
returns one combined-room entry per room of the rooms input, in room input
order, each carrying the room's id and name and, in student input order, the
`{id, name}` of exactly the students whose `room` equals that room's id;
rooms without matching students get `[]`, and students whose `room` matches
no room are dropped. -/
theorem c2_combine_groups_students_by_room (rooms : List RoomRec)
    (students : List StudentRec) (h : (rooms.map RoomRec.id).Nodup) :
    combine rooms students = rooms.map (fun room =>
      (⟨room.id, room.name,
        (students.filter (fun s => decide (s.room = room.id))).map
          (fun s => (⟨s.id, s.name⟩ : StudentLite))⟩ : CombinedRoom)) := by
  show ((students.foldl addStudentToDict
      (rooms.foldl (fun d room => dictInsert d room.id ⟨room.id, room.name, []⟩) [])).map
        Prod.snd) = _
  rw [buildRoomDict rooms [] h (by simp), List.nil_append]
  have hfun : addStudentToDict = fun acc s => acc.map (appendIfMatch s) := by
    funext d s
    exact addStudent_eq_map d s
  rw [hfun, foldl_map_pointwise, List.map_map, List.map_map]
  apply List.map_congr_left
  intro r _
  show Prod.snd (students.foldl (fun e s => appendIfMatch s e)
      (r.id, ⟨r.id, r.name, []⟩)) = _
  rw [studentFold_entry]
  rfl

/-- C2 witness: the spec's own example — rooms A and B, one student matching
room 1, one orphaned student with room 3. -/
theorem c2_witness :
    combine [⟨1, "A"⟩, ⟨2, "B"⟩] [⟨10, "X", 1⟩, ⟨11, "Y", 3⟩] =
      [⟨1, "A", [⟨10, "X"⟩]⟩, ⟨2, "B", []⟩] := by
  rw [c2_combine_groups_students_by_room [⟨1, "A"⟩, ⟨2, "B"⟩]
      [⟨10, "X", 1⟩, ⟨11, "Y", 3⟩] (by decide)]
  decide
